import Mathlib

/-!
# Verification of the CodeAssist RPC client core

A shallow embedding of `packages/core/src/code_assist/server.ts` (and the
relevant part of `packages/core/src/core/session-logger.ts`): the pseudo-SSE
stream decoder of `requestStreamingPost`, the error classifier
`isVpcScAffectedUser`, the `loadCodeAssist` tier fallback, the endpoint
resolver `getMethodUrl`, the unary dispatchers, and `embedContent`.

JavaScript values thrown as errors or carried in error payloads are embedded
as the inductive `JSValue`; JavaScript property access (which throws a
`TypeError` on `null`/`undefined` receivers) is embedded as `JSValue.getProp`
returning `Except`; the optional-chaining operator `?.` is `JSValue.optChain`.
Strings are Lean `String`s; the JavaScript operations `slice`, `trim`, and
`startsWith` used by the decoder are modelled on the character list (`jsSlice`,
`jsTrim`, `jsStartsWith`). `JSON.parse` is kept abstract as a parameter
`parse : String → α`, since the claims under study only concern framing.
-/

namespace CodeAssist

/-! ## JavaScript value model -/

/-- A JavaScript runtime value, as far as the error classifier can observe it. -/
inductive JSValue where
  | null
  | undefined
  | bool (b : Bool)
  | num (n : Int)
  | str (s : String)
  | arr (elems : List JSValue)
  | obj (fields : List (String × JSValue))

/-- JavaScript truthiness, used by the `error &&` guard. -/
def JSValue.truthy : JSValue → Bool
  | .null => false
  | .undefined => false
  | .bool b => b
  | .num n => n != 0
  | .str s => s != ""
  | .arr _ => true
  | .obj _ => true

/-- Whether `typeof v === 'object'` holds (`null`, arrays and objects). -/
def JSValue.typeofObject : JSValue → Bool
  | .null => true
  | .arr _ => true
  | .obj _ => true
  | _ => false

/-- The `'k' in v` operator, only reached when `v` is a non-null object. -/
def JSValue.hasProp : JSValue → String → Bool
  | .obj fields, k => fields.any (fun p => p.1 = k)
  | _, _ => false

/-- Plain property access `v.k`: throws a TypeError when the receiver is
`null` or `undefined`, yields `undefined` for absent fields and for
primitive receivers (which auto-box). -/
def JSValue.getProp : JSValue → String → Except String JSValue
  | .null, _ => .error "TypeError: cannot read properties of null"
  | .undefined, _ => .error "TypeError: cannot read properties of undefined"
  | .obj fields, k =>
      .ok (match fields.find? (fun p => p.1 = k) with
            | some p => p.2
            | none => .undefined)
  | _, _ => .ok .undefined

/-- Optional chaining `v?.k`: `undefined` on a nullish receiver, otherwise a
plain access (which cannot throw, the receiver being non-nullish). -/
def JSValue.optChain : JSValue → String → JSValue
  | .null, _ => .undefined
  | .undefined, _ => .undefined
  | .obj fields, k =>
      (match fields.find? (fun p => p.1 = k) with
        | some p => p.2
        | none => .undefined)
  | _, _ => .undefined

/-- `v` is neither `null` nor `undefined` (property access on it cannot throw). -/
def JSValue.nonNullish : JSValue → Bool
  | .null => false
  | .undefined => false
  | _ => true

/-! ## Error classifier: `isVpcScAffectedUser` (server.ts lines 275-292) -/

/-- The `details.some((detail) => detail.reason === 'SECURITY_POLICY_VIOLATED')`
loop: short-circuits at the first match, and throws a TypeError if it reaches a
nullish entry first (JS member access `detail.reason` on `null`/`undefined`). -/
def someReasonMatches : List JSValue → Except String Bool
  | [] => .ok false
  | d :: rest =>
      match d.getProp "reason" with
      | .error msg => .error msg
      | .ok (.str s) =>
          if s = "SECURITY_POLICY_VIOLATED" then .ok true
          else someReasonMatches rest
      | .ok _ => someReasonMatches rest

/-- Embeds `isVpcScAffectedUser` (server.ts lines 275-292). The result is
`Except`-valued because the `.some` callback can throw. -/
def isVpcScAffectedUser (error : JSValue) : Except String Bool :=
  if error.truthy && error.typeofObject && error.hasProp "response" then
    let response := (error.optChain "response").optChain "data"
    match (response.optChain "error").optChain "details" with
    | .arr elems => someReasonMatches elems
    | _ => .ok false
  else
    .ok false

/-- The chain `error.response?.data` / `response?.error?.details` as a list:
the entries of the details array when it is an array, `[]` otherwise. -/
def detailsOf (v : JSValue) : List JSValue :=
  match (((v.optChain "response").optChain "data").optChain "error").optChain "details" with
  | .arr elems => elems
  | _ => []

/-- Spec-side predicate: an entry whose `reason` field is the string
`SECURITY_POLICY_VIOLATED`. -/
def entryReasonMatches (d : JSValue) : Bool :=
  match d.optChain "reason" with
  | .str s => s = "SECURITY_POLICY_VIOLATED"
  | _ => false

/-- Spec-side predicate, following the claim wording: the structured details
array contains an entry with reason `SECURITY_POLICY_VIOLATED`. -/
def hasVpcReasonSpec (v : JSValue) : Bool :=
  (detailsOf v).any entryReasonMatches

/-! ## Dispatchers (server.ts lines 106-206) -/

/-- A value thrown out of a dispatcher call. -/
inductive CallError where
  | transport (e : JSValue)
  | typeError (msg : String)
  | errorObj (msg : String)

/-- Log categories of `session-logger.ts` (`LogObjectType`). -/
inductive LogObjectType where
  | MODEL_REQUEST
  | MODEL_RESPONSE
  | TOOL_CALL_SCHEDULE
  | TOOL_CALL_RESULT

/-- The session logger as the dispatchers see it: `log` is an `async` method
invoked without `await`, so each invocation produces a promise outcome that
the dispatcher discards (a rejection can never surface synchronously). -/
structure LoggerModel where
  outcome : LogObjectType → Except String Unit

/-- Result of a unary dispatcher call, together with the outcomes of the
discarded logging promises (recorded for the isolation theorems). -/
structure UnaryResult (α : Type) where
  result : Except CallError α
  logAttempts : List (Except String Unit)

/-- Embeds `requestPost` (server.ts lines 154-182): log the request
(fire-and-forget), await the transport, then log and return the response;
a transport rejection propagates and skips the response log. -/
def requestPost (logger : Option LoggerModel) (transport : Except JSValue α) :
    UnaryResult α :=
  let reqLog := match logger with
    | some lg => [lg.outcome .MODEL_REQUEST]
    | none => []
  match transport with
  | .error e => ⟨.error (.transport e), reqLog⟩
  | .ok d =>
      let respLog := match logger with
        | some lg => [lg.outcome .MODEL_RESPONSE]
        | none => []
      ⟨.ok d, reqLog ++ respLog⟩

/-- Embeds `requestGet` (server.ts lines 184-206): identical control flow to
`requestPost`, with no body. -/
def requestGet (logger : Option LoggerModel) (transport : Except JSValue α) :
    UnaryResult α :=
  let reqLog := match logger with
    | some lg => [lg.outcome .MODEL_REQUEST]
    | none => []
  match transport with
  | .error e => ⟨.error (.transport e), reqLog⟩
  | .ok d =>
      let respLog := match logger with
        | some lg => [lg.outcome .MODEL_RESPONSE]
        | none => []
      ⟨.ok d, reqLog ++ respLog⟩

/-- Embeds `onboardUser` (server.ts lines 97-104): a plain `requestPost`. -/
def onboardUser (logger : Option LoggerModel) (transport : Except JSValue JSValue) :
    UnaryResult JSValue :=
  requestPost logger transport

/-- Embeds `countTokens` (server.ts lines 140-146): `requestPost` followed by
the external response converter, applied only on success. -/
def countTokens (logger : Option LoggerModel) (conv : JSValue → JSValue)
    (transport : Except JSValue JSValue) : UnaryResult JSValue :=
  let r := requestPost logger transport
  match r.result with
  | .ok d => ⟨.ok (conv d), r.logAttempts⟩
  | .error e => ⟨.error e, r.logAttempts⟩

/-- Embeds `generateContent` (server.ts lines 80-95): `requestPost` followed by
the external response converter, applied only on success. -/
def generateContent (logger : Option LoggerModel) (conv : JSValue → JSValue)
    (transport : Except JSValue JSValue) : UnaryResult JSValue :=
  let r := requestPost logger transport
  match r.result with
  | .ok d => ⟨.ok (conv d), r.logAttempts⟩
  | .error e => ⟨.error e, r.logAttempts⟩

/-- Modelled from the spec: `UserTierId.STANDARD` comes from
`code_assist/types.ts`, which is not among the provided sources; the spec
calls it the fixed default standard-tier object. -/
def defaultLoadResponse : JSValue :=
  .obj [("currentTier", .obj [("id", .str "standard")])]

/-- Embeds `loadCodeAssist` (server.ts lines 106-123): `requestPost` in a
`try`; the `catch` applies `isVpcScAffectedUser` to the thrown value — which
may itself throw, in which case that TypeError propagates instead of the
original error. -/
def loadCodeAssist (logger : Option LoggerModel)
    (transport : Except JSValue JSValue) : UnaryResult JSValue :=
  let r := requestPost logger transport
  match transport with
  | .ok _ => r
  | .error e =>
      match isVpcScAffectedUser e with
      | .ok true => ⟨.ok defaultLoadResponse, r.logAttempts⟩
      | .ok false => ⟨.error (.transport e), r.logAttempts⟩
      | .error msg => ⟨.error (.typeError msg), r.logAttempts⟩

/-- Embeds `embedContent` (server.ts lines 148-152): unconditionally
`throw Error()` (an Error with empty message). -/
def embedContent (_req : JSValue) : Except CallError JSValue :=
  .error (.errorObj "")

/-! ## Endpoint resolver: `getMethodUrl` (server.ts lines 268-272) -/

def CODE_ASSIST_ENDPOINT : String := "https://cloudcode-pa.googleapis.com"

def CODE_ASSIST_API_VERSION : String := "v1internal"

/-- Embeds `getMethodUrl`: `env` is the value of
`process.env['CODE_ASSIST_ENDPOINT']` at the moment of the call (a parameter,
read freshly per call, never cached); `??` keeps the override whenever the
variable is set, even to the empty string. -/
def getMethodUrl (env : Option String) (method : String) : String :=
  let endpoint := match env with
    | some v => v
    | none => CODE_ASSIST_ENDPOINT
  endpoint ++ "/" ++ CODE_ASSIST_API_VERSION ++ ":" ++ method

/-! ## Stream decoder (server.ts lines 238-265)

The async generator of `requestStreamingPost` consumes the response's lines.
We embed the JavaScript string operations it uses on the character list of
the Lean string. -/

/-- JavaScript `s.slice(n)`. -/
def jsSlice (s : String) (n : Nat) : String :=
  String.mk (s.data.drop n)

/-- JavaScript `s.trim()`: strip leading and trailing whitespace. -/
def jsTrim (s : String) : String :=
  String.mk (((s.data.dropWhile Char.isWhitespace).reverse.dropWhile
    Char.isWhitespace).reverse)

/-- JavaScript `s.startsWith(p)`. -/
def jsStartsWith (s p : String) : Bool :=
  p.data.isPrefixOf s.data

def dataMarker : String := "data: "

/-- The decoder's externally visible behaviour on a line sequence: the
messages yielded, and the decode error raised (if any). `parse` stands for
`JSON.parse`. -/
structure StreamDecode (α : Type) where
  msgs : List α
  error : Option String

/-- Embeds the line loop of `requestStreamingPost` (server.ts lines 244-264),
started with buffer `buffered`: a blank line flushes a non-empty buffer as one
`JSON.parse`d message (a blank line on an empty buffer is skipped); a
`"data: "` line appends `line.slice(6).trim()` to the buffer; any other line
raises the decode error and ends the generator; at end of input the leftover
buffer is discarded. -/
def decodeLines (parse : String → α) :
    List String → List String → StreamDecode α
  | _, [] => ⟨[], none⟩
  | buffered, line :: rest =>
      if line = "" then
        if buffered = [] then
          decodeLines parse [] rest
        else
          let chunk := parse (String.intercalate "\n" buffered)
          let r := decodeLines parse [] rest
          ⟨chunk :: r.msgs, r.error⟩
      else if jsStartsWith line dataMarker then
        decodeLines parse (buffered ++ [jsTrim (jsSlice line 6)]) rest
      else
        ⟨[], some ("Unexpected line format in response: " ++ line)⟩

/-- Observable events of the streaming generator, in order: the per-message
response log invocation and the yield of that message. -/
inductive StreamEvent (α : Type) where
  | logResponse (msg : α)
  | yieldMsg (msg : α)

/-- The same loop as `decodeLines`, recording the event trace: at each flush
the chunk is logged (`sessionLogger?.log`, server.ts lines 252-256) and then
yielded (line 257); the error case ends the generator with no further
events. -/
def decodeEvents (parse : String → α) :
    List String → List String → List (StreamEvent α)
  | _, [] => []
  | buffered, line :: rest =>
      if line = "" then
        if buffered = [] then
          decodeEvents parse [] rest
        else
          let chunk := parse (String.intercalate "\n" buffered)
          .logResponse chunk :: .yieldMsg chunk :: decodeEvents parse [] rest
      else if jsStartsWith line dataMarker then
        decodeEvents parse (buffered ++ [jsTrim (jsSlice line 6)]) rest
      else
        []

/-- Embeds `requestStreamingPost` up to the generator (server.ts lines
208-266): log the request, await the transport, and hand the line stream to
the decoder. -/
def requestStreamingPost (logger : Option LoggerModel) (parse : String → α)
    (transport : Except JSValue (List String)) : UnaryResult (StreamDecode α) :=
  let reqLog := match logger with
    | some lg => [lg.outcome .MODEL_REQUEST]
    | none => []
  match transport with
  | .error e => ⟨.error (.transport e), reqLog⟩
  | .ok lines => ⟨.ok (decodeLines parse [] lines), reqLog⟩

/-- One well-formed frame block on the wire: its fragments as `"data: "`
lines, closed by a blank line. -/
def encodeBlock (b : List String) : List String :=
  b.map (fun f => dataMarker ++ f) ++ [""]

/-- A sequence of frame blocks on the wire. -/
def encodeBlocks (blocks : List (List String)) : List String :=
  (blocks.map encodeBlock).flatten

/-! ## Session logger (session-logger.ts lines 52-94) -/

/-- Embeds `SessionLogger.log`: returns silently when uninitialized or
without a log file path; otherwise appends to the file, catching and
swallowing any append failure (`console.debug`). The promise always
resolves. -/
def sessionLoggerLog (initialized : Bool) (hasLogFilePath : Bool)
    (appendOutcome : Except String Unit) : Except String Unit :=
  if !initialized || !hasLogFilePath then
    .ok ()
  else
    match appendOutcome with
    | .ok _ => .ok ()
    | .error _ => .ok ()

/-! ## Observation helpers and concrete error payloads -/

/-- The event is a yield of a decoded message. -/
def isYieldEvent : StreamEvent α → Bool
  | .yieldMsg _ => true
  | _ => false

/-- The event is a response-log invocation. -/
def isLogEvent : StreamEvent α → Bool
  | .logResponse _ => true
  | _ => false

/-- A transport error whose `details` array holds a single `null` entry: the
`.some` callback dereferences it and throws. -/
def vpcNullDetailError : JSValue :=
  .obj [("response", .obj [("data", .obj [("error",
    .obj [("details", .arr [.null])])])])]

/-- A transport error carrying the security-policy-violation reason code. -/
def vpcSecurityPolicyError : JSValue :=
  .obj [("response", .obj [("data", .obj [("error",
    .obj [("details", .arr [.obj [("reason", .str "SECURITY_POLICY_VIOLATED")]])])])])]

/-- A transport error with an ordinary reason code. -/
def vpcOtherReasonError : JSValue :=
  .obj [("response", .obj [("data", .obj [("error",
    .obj [("details", .arr [.obj [("reason", .str "RATE_LIMITED")]])])])])]

/-! ## Decoder lemmas -/

lemma isPrefixOf_append_self (l₁ l₂ : List Char) : l₁.isPrefixOf (l₁ ++ l₂) = true := by
  induction l₁ with
  | nil => simp [List.isPrefixOf]
  | cons c t ih => simp [List.isPrefixOf, ih]

lemma jsSlice_dataMarker_append (f : String) : jsSlice (dataMarker ++ f) 6 = f := by
  unfold jsSlice
  rw [String.data_append]
  have h6 : dataMarker.data.length = 6 := rfl
  rw [← h6, List.drop_left]

lemma jsStartsWith_dataMarker_append (f : String) :
    jsStartsWith (dataMarker ++ f) dataMarker = true := by
  unfold jsStartsWith
  rw [String.data_append]
  exact isPrefixOf_append_self _ _

lemma dataMarker_append_ne_empty (f : String) : (dataMarker ++ f) ≠ "" := by
  intro h
  have hd : dataMarker.data ++ f.data = ("" : String).data := by
    rw [← String.data_append, h]
  rcases List.append_eq_nil.mp hd with ⟨h1, _⟩
  exact absurd h1 (by decide)

lemma decodeLines_nil (parse : String → α) (buffered : List String) :
    decodeLines parse buffered [] = ⟨[], none⟩ := rfl

lemma decodeLines_data_block (parse : String → α) (buffered b rest : List String) :
    decodeLines parse buffered (b.map (fun f => dataMarker ++ f) ++ rest)
      = decodeLines parse (buffered ++ b.map jsTrim) rest := by
  induction b generalizing buffered with
  | nil => simp
  | cons f t ih =>
      simp only [List.map_cons, List.cons_append]
      rw [decodeLines]
      simp only [dataMarker_append_ne_empty f, if_false,
        jsStartsWith_dataMarker_append f, if_true, jsSlice_dataMarker_append f]
      rw [ih (buffered ++ [jsTrim f]), List.append_assoc]
      rfl

lemma decodeLines_flush (parse : String → α) (buffered rest : List String)
    (h : buffered ≠ []) :
    decodeLines parse buffered ("" :: rest)
      = ⟨parse (String.intercalate "\n" buffered) :: (decodeLines parse [] rest).msgs,
          (decodeLines parse [] rest).error⟩ := by
  rw [decodeLines]
  simp [h]

lemma decodeLines_skip (parse : String → α) (rest : List String) :
    decodeLines parse [] ("" :: rest) = decodeLines parse [] rest := by
  rw [decodeLines]
  simp

lemma decodeLines_encodeBlocks (parse : String → α) (blocks : List (List String))
    (rest : List String) :
    decodeLines parse [] (encodeBlocks blocks ++ rest)
      = ⟨(blocks.filter (fun b => !b.isEmpty)).map
            (fun b => parse (String.intercalate "\n" (b.map jsTrim)))
          ++ (decodeLines parse [] rest).msgs,
          (decodeLines parse [] rest).error⟩ := by
  induction blocks with
  | nil => simp [encodeBlocks]
  | cons b bs ih =>
      have hb : encodeBlocks (b :: bs) ++ rest
          = b.map (fun f => dataMarker ++ f) ++ ("" :: (encodeBlocks bs ++ rest)) := by
        simp [encodeBlocks, encodeBlock]
      rw [hb, decodeLines_data_block]
      simp only [List.nil_append]
      cases b with
      | nil =>
          rw [List.map_nil, decodeLines_skip, ih]
          simp
      | cons f t =>
          rw [decodeLines_flush parse _ _ (by simp), ih]
          simp

/-! ## Classifier lemmas -/

lemma getProp_eq_optChain (d : JSValue) (k : String) (h : d.nonNullish = true) :
    d.getProp k = .ok (d.optChain k) := by
  cases d with
  | null => simp [JSValue.nonNullish] at h
  | undefined => simp [JSValue.nonNullish] at h
  | bool b => rfl
  | num n => rfl
  | str s => rfl
  | arr elems => rfl
  | obj fields => rfl

lemma someReasonMatches_eq_any (l : List JSValue)
    (h : l.all JSValue.nonNullish = true) :
    someReasonMatches l = .ok (l.any entryReasonMatches) := by
  induction l with
  | nil => rfl
  | cons d rest ih =>
      rw [List.all_cons] at h
      have h1 : JSValue.nonNullish d = true := (Bool.and_eq_true_iff.mp h).1
      have h2 : rest.all JSValue.nonNullish = true := (Bool.and_eq_true_iff.mp h).2
      rw [someReasonMatches, getProp_eq_optChain d _ h1, List.any_cons]
      cases hr : d.optChain "reason" with
      | str s =>
          rcases eq_or_ne s "SECURITY_POLICY_VIOLATED" with hs | hs
          · subst hs
            simp [entryReasonMatches, hr]
          · simp [entryReasonMatches, hr, hs, ih h2]
      | null => simp [entryReasonMatches, hr, ih h2]
      | undefined => simp [entryReasonMatches, hr, ih h2]
      | bool b => simp [entryReasonMatches, hr, ih h2]
      | num n => simp [entryReasonMatches, hr, ih h2]
      | arr elems => simp [entryReasonMatches, hr, ih h2]
      | obj fields => simp [entryReasonMatches, hr, ih h2]

lemma isVpc_eq_spec (v : JSValue) (h : (detailsOf v).all JSValue.nonNullish = true) :
    isVpcScAffectedUser v = .ok (hasVpcReasonSpec v) := by
  cases v with
  | null => rfl
  | undefined => rfl
  | bool b =>
      simp [isVpcScAffectedUser, JSValue.truthy, JSValue.typeofObject, JSValue.hasProp,
        hasVpcReasonSpec, detailsOf, JSValue.optChain]
  | num n =>
      simp [isVpcScAffectedUser, JSValue.truthy, JSValue.typeofObject, JSValue.hasProp,
        hasVpcReasonSpec, detailsOf, JSValue.optChain]
  | str s =>
      simp [isVpcScAffectedUser, JSValue.truthy, JSValue.typeofObject, JSValue.hasProp,
        hasVpcReasonSpec, detailsOf, JSValue.optChain]
  | arr elems => rfl
  | obj fields =>
      have hguard : ((JSValue.obj fields).truthy && (JSValue.obj fields).typeofObject
          && (JSValue.obj fields).hasProp "response")
            = (JSValue.obj fields).hasProp "response" := by
        simp [JSValue.truthy, JSValue.typeofObject]
      unfold isVpcScAffectedUser
      rw [hguard]
      by_cases hg : (JSValue.obj fields).hasProp "response" = true
      · rw [if_pos hg]
        unfold detailsOf at h
        unfold hasVpcReasonSpec detailsOf
        cases hc : ((((JSValue.obj fields).optChain "response").optChain "data").optChain
            "error").optChain "details" with
        | arr elems =>
            rw [hc] at h
            simp only [hc]
            simp only at h
            exact someReasonMatches_eq_any elems h
        | null => simp [hc]
        | undefined => simp [hc]
        | bool b => simp [hc]
        | num n => simp [hc]
        | str s => simp [hc]
        | obj fs => simp [hc]
      · rw [if_neg hg]
        have hany : (fields.any fun p => p.1 = "response") = false := by
          cases hb : (JSValue.obj fields).hasProp "response" with
          | false => exact hb
          | true => exact absurd hb hg
        have hfind : fields.find? (fun p => p.1 = "response") = none := by
          rw [List.find?_eq_none]
          intro x hx hpx
          have hx2 : (fields.any fun p => p.1 = "response") = true :=
            List.any_eq_true.mpr ⟨x, hx, hpx⟩
          rw [hany] at hx2
          exact Bool.false_ne_true hx2
        unfold hasVpcReasonSpec detailsOf
        simp [JSValue.optChain, hfind]


/-! ## Event-trace lemmas -/

lemma decodeEvents_pairs (parse : String → α) (buffered lines : List String) :
    ∃ msgs : List α, decodeEvents parse buffered lines
      = msgs.flatMap (fun m => [StreamEvent.logResponse m, StreamEvent.yieldMsg m]) := by
  induction lines generalizing buffered with
  | nil => exact ⟨[], rfl⟩
  | cons line rest ih =>
      by_cases hline : line = ""
      · subst hline
        by_cases hbuf : buffered = []
        · subst hbuf
          obtain ⟨msgs, hm⟩ := ih []
          refine ⟨msgs, ?_⟩
          rw [decodeEvents]
          simp [hm]
        · obtain ⟨msgs, hm⟩ := ih []
          refine ⟨parse (String.intercalate "\n" buffered) :: msgs, ?_⟩
          rw [decodeEvents]
          simp [hbuf, hm]
      · by_cases hpre : jsStartsWith line dataMarker = true
        · obtain ⟨msgs, hm⟩ := ih (buffered ++ [jsTrim (jsSlice line 6)])
          refine ⟨msgs, ?_⟩
          rw [decodeEvents]
          simp [hline, hpre, hm]
        · refine ⟨[], ?_⟩
          rw [decodeEvents]
          simp [hline, hpre]

lemma pairs_take_countP (msgs : List α) (n : Nat) :
    ((msgs.flatMap
        (fun m => [StreamEvent.logResponse m, StreamEvent.yieldMsg m])).take n).countP
          isYieldEvent
      ≤ ((msgs.flatMap
        (fun m => [StreamEvent.logResponse m, StreamEvent.yieldMsg m])).take n).countP
          isLogEvent := by
  induction msgs generalizing n with
  | nil => simp
  | cons m t ih =>
      rcases n with _ | n
      · simp
      rcases n with _ | k
      · simp [List.flatMap_cons, isYieldEvent, isLogEvent, List.countP_cons]
      · have hk := ih k
        simp [List.flatMap_cons, List.take_succ_cons, List.countP_cons,
          isYieldEvent, isLogEvent] at hk ⊢
        omega

lemma decodeEvents_yields (parse : String → α) (buffered lines : List String) :
    (decodeEvents parse buffered lines).filterMap
        (fun e => match e with | .yieldMsg m => some m | _ => none)
      = (decodeLines parse buffered lines).msgs := by
  induction lines generalizing buffered with
  | nil => rfl
  | cons line rest ih =>
      rw [decodeEvents, decodeLines]
      by_cases hline : line = ""
      · by_cases hbuf : buffered = []
        · simp [hline, hbuf, ih]
        · simp [hline, hbuf, ih]
      · by_cases hpre : jsStartsWith line dataMarker = true
        · simp [hline, hpre, ih]
        · simp [hline, hpre]


/-! ## Claim theorems -/

/-- Claim C2: for every sequence of frame blocks on the wire, the decoder
yields exactly one message per non-empty block, equal to `JSON.parse` of the
fragments (each obtained by stripping the 6-character marker and trimming)
joined with a newline, and raises no error; and a blank line arriving while
the pending buffer is empty yields no message and raises no error. -/
theorem decoder_delimiter_framing (parse : String → α) (blocks : List (List String)) :
    decodeLines parse [] (encodeBlocks blocks)
      = ⟨(blocks.filter (fun b => !b.isEmpty)).map
            (fun b => parse (String.intercalate "\n" (b.map jsTrim))), none⟩
    ∧ ∀ rest : List String,
        decodeLines parse [] ("" :: rest) = decodeLines parse [] rest := by
  constructor
  · have h := decodeLines_encodeBlocks parse blocks []
    simpa [decodeLines_nil] using h
  · exact decodeLines_skip parse

/-- Claim C3: a line that is neither empty nor marked `"data: "` makes the
decoder raise an error whose message contains the offending line literally,
and no further messages are produced afterwards, whatever valid frames
follow. -/
theorem decoder_protocol_violation (parse : String → α) (buffered rest : List String)
    (bad : String) (h1 : bad ≠ "") (h2 : jsStartsWith bad dataMarker = false) :
    decodeLines parse buffered (bad :: rest)
      = ⟨[], some ("Unexpected line format in response: " ++ bad)⟩
    ∧ bad.data <:+ ("Unexpected line format in response: " ++ bad).data := by
  constructor
  · rw [decodeLines]
    simp [h1, h2]
  · rw [String.data_append]
    exact List.suffix_append _ _

theorem decoder_protocol_violation_witness :
    (decodeLines (fun s => s) [] ["oops", "data: x", ""]
      = ⟨[], some ("Unexpected line format in response: " ++ "oops")⟩)
    ∧ ("oops" : String).data <:+ ("Unexpected line format in response: " ++ "oops").data :=
  decoder_protocol_violation (fun s => s) [] ["data: x", ""] "oops" (by decide) (by decide)

/-- Claim C4: when the stream ends with a final block of `"data: "` lines not
terminated by a blank line, the buffered fragments of that block are
discarded: the decoder completes with only the messages of the closed blocks
and no error. -/
theorem decoder_discards_trailing (parse : String → α) (blocks : List (List String))
    (final : List String) (h : final ≠ []) :
    decodeLines parse [] (encodeBlocks blocks ++ final.map (fun f => dataMarker ++ f))
      = ⟨(blocks.filter (fun b => !b.isEmpty)).map
            (fun b => parse (String.intercalate "\n" (b.map jsTrim))), none⟩ := by
  rw [decodeLines_encodeBlocks]
  have hfin := decodeLines_data_block parse [] final []
  rw [List.append_nil] at hfin
  rw [hfin]
  simp [decodeLines_nil]

theorem decoder_discards_trailing_witness :
    decodeLines (fun s => s) []
        (encodeBlocks [["a"]] ++ ["tail"].map (fun f => dataMarker ++ f))
      = ⟨([["a"]].filter (fun b => !b.isEmpty)).map
            (fun b => String.intercalate "\n" (b.map jsTrim)), none⟩ :=
  decoder_discards_trailing (fun s => s) [["a"]] ["tail"] (by decide)

/-- Claim C6: `getMethodUrl` returns `{endpoint}/{api-version}:{method}`,
where the api version is the fixed constant `v1internal` and the endpoint is
the per-call environment override when set (substituted verbatim), otherwise
the fixed constant `https://cloudcode-pa.googleapis.com`. -/
theorem getMethodUrl_spec (env : Option String) (m : String) :
    getMethodUrl env m
      = (env.getD CODE_ASSIST_ENDPOINT) ++ "/" ++ CODE_ASSIST_API_VERSION ++ ":" ++ m
    ∧ CODE_ASSIST_API_VERSION = "v1internal"
    ∧ CODE_ASSIST_ENDPOINT = "https://cloudcode-pa.googleapis.com"
    ∧ (∀ e : String, getMethodUrl (some e) m = e ++ "/" ++ "v1internal" ++ ":" ++ m)
    ∧ getMethodUrl none "countTokens"
        = "https://cloudcode-pa.googleapis.com/v1internal:countTokens" := by
  refine ⟨?_, rfl, rfl, fun e => rfl, by decide⟩
  cases env <;> rfl

/-- Claim C7: the session logger's `log` promise always resolves (failures are
swallowed internally), and in any case the result of every unary and
streaming dispatcher call is independent of the logger: absent, succeeding
and failing loggers all give the same primary result. -/
theorem logger_isolation (α : Type) (lg₁ lg₂ : Option LoggerModel) :
    (∀ (init hasPath : Bool) (append : Except String Unit),
        sessionLoggerLog init hasPath append = .ok ())
    ∧ (∀ t : Except JSValue α, (requestPost lg₁ t).result = (requestPost lg₂ t).result)
    ∧ (∀ t : Except JSValue α, (requestGet lg₁ t).result = (requestGet lg₂ t).result)
    ∧ (∀ (parse : String → α) (t : Except JSValue (List String)),
        (requestStreamingPost lg₁ parse t).result
          = (requestStreamingPost lg₂ parse t).result) := by
  refine ⟨?_, ?_, ?_, ?_⟩
  · intro init hasPath append
    cases init <;> cases hasPath <;> cases append <;> rfl
  · intro t
    cases t <;> rfl
  · intro t
    cases t <;> rfl
  · intro parse t
    cases t <;> rfl

/-- Claim C8: the streaming generator logs each decoded message as an inbound
response immediately before yielding it — the event trace is a concatenation
of log/yield pairs — so in every prefix of the trace the number of response
log invocations is at least the number of messages yielded. -/
theorem streaming_log_before_yield (parse : String → α) (buffered lines : List String) :
    (∃ msgs : List α, decodeEvents parse buffered lines
        = msgs.flatMap (fun m => [StreamEvent.logResponse m, StreamEvent.yieldMsg m]))
    ∧ ∀ n : Nat, ((decodeEvents parse buffered lines).take n).countP isYieldEvent
        ≤ ((decodeEvents parse buffered lines).take n).countP isLogEvent := by
  obtain ⟨msgs, hm⟩ := decodeEvents_pairs parse buffered lines
  refine ⟨⟨msgs, hm⟩, fun n => ?_⟩
  rw [hm]
  exact pairs_take_countP msgs n

/-- Claim C9: `embedContent` throws unconditionally (a bare `Error()`), and
never returns an embedding result. -/
theorem embedContent_always_throws (req : JSValue) :
    embedContent req = .error (.errorObj "")
    ∧ ∀ r : JSValue, embedContent req ≠ .ok r :=
  ⟨rfl, fun _ h => Except.noConfusion h⟩

/-- Claim C1, counterexample: a transport error whose `details` array holds a
`null` entry has no entry with the security-policy reason, yet the original
error does not propagate unchanged — the classifier itself throws a
TypeError inside the `catch`, and that TypeError propagates instead. -/
theorem loadCodeAssist_counterexample :
    hasVpcReasonSpec vpcNullDetailError = false
    ∧ (loadCodeAssist none (.error vpcNullDetailError)).result
        = .error (.typeError "TypeError: cannot read properties of null")
    ∧ (loadCodeAssist none (.error vpcNullDetailError)).result
        ≠ .error (.transport vpcNullDetailError) := by
  refine ⟨rfl, rfl, fun h => ?_⟩
  have h2 : (Except.error (CallError.typeError "TypeError: cannot read properties of null")
      : Except CallError JSValue) = .error (.transport vpcNullDetailError) := h
  injection h2 with h3
  exact CallError.noConfusion h3

/-- Claim C1, amended: when the classifier evaluates without throwing,
`loadCodeAssist` resolves with the default standard-tier object exactly on a
positive classification and re-raises the original error otherwise; when the
classifier itself throws (a nullish `details` entry reached before a match),
its TypeError propagates in place of the original error; the classifier
agrees with the details-contain-the-reason reading whenever no details entry
is nullish; and every other operation propagates the transport error
unchanged. -/
theorem loadCodeAssist_amended (logger : Option LoggerModel) :
    (∀ e : JSValue, isVpcScAffectedUser e = .ok true →
        (loadCodeAssist logger (.error e)).result = .ok defaultLoadResponse)
    ∧ (∀ e : JSValue, isVpcScAffectedUser e = .ok false →
        (loadCodeAssist logger (.error e)).result = .error (.transport e))
    ∧ (∀ (e : JSValue) (msg : String), isVpcScAffectedUser e = .error msg →
        (loadCodeAssist logger (.error e)).result = .error (.typeError msg))
    ∧ (∀ e : JSValue, (detailsOf e).all JSValue.nonNullish = true →
        isVpcScAffectedUser e = .ok (hasVpcReasonSpec e))
    ∧ (∀ e : JSValue, (onboardUser logger (.error e)).result = .error (.transport e))
    ∧ (∀ (conv : JSValue → JSValue) (e : JSValue),
        (countTokens logger conv (.error e)).result = .error (.transport e))
    ∧ (∀ (conv : JSValue → JSValue) (e : JSValue),
        (generateContent logger conv (.error e)).result = .error (.transport e))
    ∧ (∀ e : JSValue, (requestGet (α := JSValue) logger (.error e)).result
        = .error (.transport e)) := by
  refine ⟨?_, ?_, ?_, fun e h => isVpc_eq_spec e h, fun e => rfl,
    fun conv e => rfl, fun conv e => rfl, fun e => rfl⟩
  · intro e h
    simp [loadCodeAssist, h]
  · intro e h
    simp [loadCodeAssist, h]
  · intro e msg h
    simp [loadCodeAssist, h]

theorem loadCodeAssist_amended_witness :
    isVpcScAffectedUser vpcSecurityPolicyError = .ok true
    ∧ (loadCodeAssist none (.error vpcSecurityPolicyError)).result
        = .ok defaultLoadResponse :=
  ⟨rfl, (loadCodeAssist_amended none).1 vpcSecurityPolicyError rfl⟩

/-- Claim C10, counterexample: the classifier is not total — on an error
whose `details` array holds a `null` entry, the `.some` callback dereferences
it and throws a TypeError instead of returning a boolean. -/
theorem isVpcScAffectedUser_counterexample :
    isVpcScAffectedUser vpcNullDetailError
      = .error "TypeError: cannot read properties of null" := rfl

/-- Claim C10, amended: on every input whose `details` entries are all
non-nullish (in particular on every input whose details chain is absent or
not an array), the classifier returns a boolean without throwing, true
exactly when some details entry has reason `SECURITY_POLICY_VIOLATED`. -/
theorem isVpcScAffectedUser_amended (v : JSValue)
    (h : (detailsOf v).all JSValue.nonNullish = true) :
    isVpcScAffectedUser v = .ok (hasVpcReasonSpec v) :=
  isVpc_eq_spec v h

theorem isVpcScAffectedUser_amended_witness :
    (detailsOf vpcOtherReasonError).all JSValue.nonNullish = true
    ∧ isVpcScAffectedUser vpcOtherReasonError
        = .ok (hasVpcReasonSpec vpcOtherReasonError) :=
  ⟨rfl, isVpcScAffectedUser_amended vpcOtherReasonError rfl⟩

end CodeAssist
